import Mathlib

/-!
Verification of the persistence/lifecycle core of the Handover_checklist
application (src/Handover_checklist_DB.py).

The SQLite store of `DBManager` is embedded shallowly: each table is a list
of row records together with the next AUTOINCREMENT id, and each `DBManager`
method becomes a pure function on that state.  Statements executed before an
exception are kept in the returned state (the sqlite3 module runs in
autocommit-style transactions: the project insert is followed by an explicit
commit before any failing statement, and pending statements are flushed by
the next commit on the shared connection).
-/

namespace HandoverChecklist

/-- Row of the `projects` table (schema in `DBManager._create_tables`). -/
structure ProjectRow where
  project_id : Nat
  product_name : String
  project_name : String
  fg_part_number : String
  pcba_part_number : String
  start_date : String
  end_date : String
  bom_file : String
  npi_engineer : String
deriving Repr, DecidableEq

/-- Row of the `mes` table. -/
structure MesRow where
  mes_id : Nat
  project_id : Nat
  lot_id : String
  workflow_smt : String
  workflow_tla : String
  smt_work_order : String
  tla_work_order : String
  work_order_qty : Option Int
  po_number : String
  po_qty : Option Int
deriving Repr, DecidableEq

/-- Row of one of the three matrix tables (`assembly_drawings`,
`build_matrix`, `machine_matrix`): two free-text columns plus the `seq`
column, which is NULL when the insert did not supply it. -/
structure MatrixRow where
  id : Nat
  project_id : Nat
  fieldA : String
  fieldB : String
  seq : Option Nat
deriving Repr, DecidableEq

/-- Row of the `handover_docs` table. -/
structure DocRow where
  id : Nat
  project_id : Nat
  category : String
  file_path : String
deriving Repr, DecidableEq

/-- Row of the `checklist_items` table; `completed` is the INTEGER column. -/
structure ChecklistRow where
  id : Nat
  project_id : Nat
  item_name : String
  completed : Int
  person : String
  reference : String
  seq : Nat
deriving Repr, DecidableEq

/-- The three matrix kinds of the application. -/
inductive MatrixKind where
  | assembly
  | build
  | machine
deriving Repr, DecidableEq

/-- The whole SQLite database: one list per table plus the next
AUTOINCREMENT value of each INTEGER PRIMARY KEY. -/
structure DB where
  projects : List ProjectRow
  nextProjectId : Nat
  mes : List MesRow
  nextMesId : Nat
  assembly_drawings : List MatrixRow
  nextAssemblyId : Nat
  build_matrix : List MatrixRow
  nextBuildId : Nat
  machine_matrix : List MatrixRow
  nextMachineId : Nat
  handover_docs : List DocRow
  nextDocId : Nat
  checklist_items : List ChecklistRow
  nextChecklistId : Nat
deriving Repr, DecidableEq

/-- Fresh database, as produced by `_create_tables` on a new file;
AUTOINCREMENT starts at 1. -/
def emptyDB : DB :=
  { projects := [], nextProjectId := 1
    mes := [], nextMesId := 1
    assembly_drawings := [], nextAssemblyId := 1
    build_matrix := [], nextBuildId := 1
    machine_matrix := [], nextMachineId := 1
    handover_docs := [], nextDocId := 1
    checklist_items := [], nextChecklistId := 1 }

/-- Table of one matrix kind. -/
def DB.table (db : DB) : MatrixKind → List MatrixRow
  | .assembly => db.assembly_drawings
  | .build => db.build_matrix
  | .machine => db.machine_matrix

/-- Next AUTOINCREMENT id of one matrix kind's table. -/
def DB.nextTableId (db : DB) : MatrixKind → Nat
  | .assembly => db.nextAssemblyId
  | .build => db.nextBuildId
  | .machine => db.nextMachineId

/-- Replace the table of one matrix kind and its AUTOINCREMENT counter. -/
def DB.setTable (db : DB) (k : MatrixKind) (t : List MatrixRow) (n : Nat) : DB :=
  match k with
  | .assembly => { db with assembly_drawings := t, nextAssemblyId := n }
  | .build => { db with build_matrix := t, nextBuildId := n }
  | .machine => { db with machine_matrix := t, nextMachineId := n }

/-- Python `s or ""` on a string: `""` is falsy, so the result is `s`
itself (the idiom only matters for `None`, which the typed model excludes). -/
def pyOr (s : String) : String :=
  if s = "" then "" else s

/-- Sort key of the `seq` column under `ORDER BY seq`: SQLite sorts NULL
before every integer. -/
def seqKey : Option Nat → Nat
  | none => 0
  | some n => n + 1

/-- Comparison used to model `ORDER BY seq` on a matrix table. -/
abbrev seqLe (a b : MatrixRow) : Prop :=
  seqKey a.seq ≤ seqKey b.seq

/-- Comparison used to model `ORDER BY seq` on the checklist table. -/
abbrev cseqLe (a b : ChecklistRow) : Prop :=
  a.seq ≤ b.seq

/-- Rows inserted by the loop `for seq, (a, b) in enumerate(rows, start=1)`
of the three save methods: ids from the AUTOINCREMENT counter, `seq`
assigned 1-based in list order, empty-string coalescing via `or ""`. -/
def mkMatrixRows (pid : Nat) (nid : Nat) (s : Nat) :
    List (String × String) → List MatrixRow
  | [] => []
  | (a, b) :: rest =>
      ⟨nid, pid, pyOr a, pyOr b, some s⟩ :: mkMatrixRows pid (nid + 1) (s + 1) rest

/-- Rows inserted by the seeding loops of `add_project`, which supply no
`seq` value, leaving the column NULL. -/
def mkMatrixRowsNoSeq (pid : Nat) (nid : Nat) :
    List (String × String) → List MatrixRow
  | [] => []
  | (a, b) :: rest =>
      ⟨nid, pid, a, b, none⟩ :: mkMatrixRowsNoSeq pid (nid + 1) rest

/-- Shared shape of `save_build_matrix`, `save_assembly_drawings` and
`save_machine_matrix`: `DELETE FROM <table> WHERE project_id=?`, then insert
the supplied pairs with `seq` 1..N, then commit. -/
def saveMatrix (db : DB) (k : MatrixKind) (pid : Nat)
    (rows : List (String × String)) : DB :=
  let kept := (db.table k).filter (fun r => !(r.project_id == pid))
  db.setTable k (kept ++ mkMatrixRows pid (db.nextTableId k) 1 rows)
    (db.nextTableId k + rows.length)

/-- Shared shape of the three get methods: `SELECT <fieldA>, <fieldB> FROM
<table> WHERE project_id=? ORDER BY seq`. -/
def getMatrix (db : DB) (k : MatrixKind) (pid : Nat) : List (String × String) :=
  (((db.table k).filter (fun r => r.project_id == pid)).insertionSort seqLe).map
    (fun r => (r.fieldA, r.fieldB))

/-- `DBManager.save_build_matrix`. -/
def save_build_matrix (db : DB) (pid : Nat) (rows : List (String × String)) : DB :=
  saveMatrix db .build pid rows

/-- `DBManager.get_build_matrix`. -/
def get_build_matrix (db : DB) (pid : Nat) : List (String × String) :=
  getMatrix db .build pid

/-- `DBManager.save_assembly_drawings`. -/
def save_assembly_drawings (db : DB) (pid : Nat) (rows : List (String × String)) : DB :=
  saveMatrix db .assembly pid rows

/-- `DBManager.get_assembly_drawings`. -/
def get_assembly_drawings (db : DB) (pid : Nat) : List (String × String) :=
  getMatrix db .assembly pid

/-- `DBManager.save_machine_matrix`. -/
def save_machine_matrix (db : DB) (pid : Nat) (rows : List (String × String)) : DB :=
  saveMatrix db .machine pid rows

/-- `DBManager.get_machine_matrix`. -/
def get_machine_matrix (db : DB) (pid : Nat) : List (String × String) :=
  getMatrix db .machine pid

/-- Error raised by the sqlite3 driver: `add_project` issues inserts into
table names (`mes_workflow`, `machine_program`) that `_create_tables` never
creates (the schema has `mes` and `machine_matrix`), which raises
`sqlite3.OperationalError: no such table`. -/
inductive SqlError where
  | noSuchTable : String → SqlError
deriving Repr, DecidableEq

/-- Value of `details.get("MES Workflow", {})` in `add_project`; `none`
models an absent or empty dict, which is falsy and skips the insert. -/
structure WorkflowDetails where
  lot_id : String
  workflow_smt : String
  workflow_tla : String
  smt_work_order : String
  tla_work_order : String
  work_order_qty : Int
  po_number : String
  po_qty : Int
deriving Repr, DecidableEq

/-- The `details` dict passed to `add_project`: metadata columns plus the
optional seeding payloads. -/
structure ProjectDetails where
  fg_part_number : String
  pcba_part_number : String
  start_date : String
  end_date : String
  bom_file : String
  npi_engineer : String
  mes_workflow : Option WorkflowDetails
  assembly_drawings : List (String × String)
  build_matrix : List (String × String)
  machine_program : List (String × String)
deriving Repr, DecidableEq

/-- First statement of `add_project`: `INSERT OR IGNORE INTO projects ...`
followed by `commit` — the row is added only when no row with that
(UNIQUE) project name exists. -/
def insertProjectIfAbsent (db : DB) (product_name : String)
    (project_name : String) (details : ProjectDetails) : DB :=
  if (db.projects.filter (fun r => r.project_name == project_name)).isEmpty then
    { db with
      projects := db.projects ++
        [⟨db.nextProjectId, product_name, project_name,
          details.fg_part_number, details.pcba_part_number,
          details.start_date, details.end_date,
          details.bom_file, details.npi_engineer⟩]
      nextProjectId := db.nextProjectId + 1 }
  else db

/-- Seeding loop of `add_project` over `details.get("Assembly Drawings")`:
inserts into `assembly_drawings` without supplying `seq`. -/
def seedAssemblyDrawings (db : DB) (pid : Nat)
    (rows : List (String × String)) : DB :=
  { db with
    assembly_drawings := db.assembly_drawings ++
      mkMatrixRowsNoSeq pid db.nextAssemblyId rows
    nextAssemblyId := db.nextAssemblyId + rows.length }

/-- Seeding loop of `add_project` over `details.get("Build Matrix")`:
inserts into `build_matrix` without supplying `seq`. -/
def seedBuildMatrix (db : DB) (pid : Nat)
    (rows : List (String × String)) : DB :=
  { db with
    build_matrix := db.build_matrix ++
      mkMatrixRowsNoSeq pid db.nextBuildId rows
    nextBuildId := db.nextBuildId + rows.length }

/-- `DBManager.add_project`.  Statement order as in the source:
`INSERT OR IGNORE` into `projects` + commit, `SELECT project_id` by name,
then the MES-workflow insert (into the nonexistent `mes_workflow` table),
the assembly-drawings and build-matrix seeding loops (no `seq` supplied),
and the machine-program insert (into the nonexistent `machine_program`
table).  The result pairs the committed state with the returned id or the
raised error. -/
def add_project (db : DB) (product_name : String) (project_name : String)
    (details : ProjectDetails) : DB × Except SqlError Int :=
  let db1 := insertProjectIfAbsent db product_name project_name details
  match db1.projects.find? (fun r => r.project_name == project_name) with
  | none => (db1, .ok (-1))
  | some row =>
      match details.mes_workflow with
      | some _ => (db1, .error (.noSuchTable "mes_workflow"))
      | none =>
          let db3 := seedBuildMatrix
            (seedAssemblyDrawings db1 row.project_id details.assembly_drawings)
            row.project_id details.build_matrix
          match details.machine_program with
          | [] => (db3, .ok (row.project_id : Int))
          | _ :: _ => (db3, .error (.noSuchTable "machine_program"))

/-- `DBManager.update_project_details`: UPDATE of the metadata columns of
every `projects` row whose name matches. -/
def update_project_details (db : DB) (project_name : String)
    (details : ProjectDetails) : DB :=
  { db with projects := db.projects.map (fun r =>
      if r.project_name == project_name then
        { r with
          fg_part_number := details.fg_part_number
          pcba_part_number := details.pcba_part_number
          start_date := details.start_date
          end_date := details.end_date
          bom_file := details.bom_file
          npi_engineer := details.npi_engineer }
      else r) }

/-- `DBManager.delete_project`: look the id up by name, then DELETE the
project row and the child rows of `mes`, `build_matrix`, `machine_matrix`,
`handover_docs` and `checklist_items`.  The source issues no DELETE against
`assembly_drawings`. -/
def delete_project (db : DB) (project_name : String) : DB :=
  match db.projects.find? (fun r => r.project_name == project_name) with
  | none => db
  | some row =>
      let pid := row.project_id
      { db with
        projects := db.projects.filter (fun r => !(r.project_id == pid))
        mes := db.mes.filter (fun r => !(r.project_id == pid))
        build_matrix := db.build_matrix.filter (fun r => !(r.project_id == pid))
        machine_matrix := db.machine_matrix.filter (fun r => !(r.project_id == pid))
        handover_docs := db.handover_docs.filter (fun r => !(r.project_id == pid))
        checklist_items := db.checklist_items.filter (fun r => !(r.project_id == pid)) }

/-- Input dict of `DBManager.save_mes`; quantities default to `None`. -/
structure MesInput where
  lot_id : String
  workflow_smt : String
  workflow_tla : String
  smt_work_order : String
  tla_work_order : String
  work_order_qty : Option Int
  po_number : String
  po_qty : Option Int
deriving Repr, DecidableEq

/-- `DBManager.save_mes`: delete the project's `mes` row(s), insert one. -/
def save_mes (db : DB) (pid : Nat) (m : MesInput) : DB :=
  { db with
    mes := db.mes.filter (fun r => !(r.project_id == pid)) ++
      [⟨db.nextMesId, pid, m.lot_id, m.workflow_smt, m.workflow_tla,
        m.smt_work_order, m.tla_work_order, m.work_order_qty,
        m.po_number, m.po_qty⟩]
    nextMesId := db.nextMesId + 1 }

/-- `DBManager.add_handover_doc`: plain INSERT, no uniqueness constraint. -/
def add_handover_doc (db : DB) (pid : Nat) (category : String)
    (file_path : String) : DB :=
  { db with
    handover_docs := db.handover_docs ++ [⟨db.nextDocId, pid, category, file_path⟩]
    nextDocId := db.nextDocId + 1 }

/-- `DBManager.remove_handover_doc`: DELETE by primary key. -/
def remove_handover_doc (db : DB) (doc_id : Nat) : DB :=
  { db with handover_docs := db.handover_docs.filter (fun d => !(d.id == doc_id)) }

/-- Fallback deletion in `HandoverTab.remove_selected`:
`DELETE FROM handover_docs WHERE project_id=? AND file_path=?`. -/
def remove_handover_doc_by_path (db : DB) (pid : Nat) (file_path : String) : DB :=
  { db with handover_docs :=
      db.handover_docs.filter (fun d => !(d.project_id == pid && d.file_path == file_path)) }

/-- One entry of the checklist template dict passed to
`initialize_checklist`. -/
structure ChecklistEntry where
  completed : Bool
  person : String
  reference : String
deriving Repr, DecidableEq

/-- Rows inserted by the seeding loop of `initialize_checklist`: one row
per template entry in template (dict-insertion) order, `seq` counting up
from `s`, `completed` via `int(...)`. -/
def mkChecklistRows (pid : Nat) (nid : Nat) (s : Nat) :
    List (String × ChecklistEntry) → List ChecklistRow
  | [] => []
  | (name, e) :: rest =>
      ⟨nid, pid, name, if e.completed then 1 else 0, e.person, e.reference, s⟩ ::
        mkChecklistRows pid (nid + 1) (s + 1) rest

/-- `DBManager.initialize_checklist`: seed from the template only when the
project has zero checklist rows, otherwise leave everything untouched. -/
def initialize_checklist (db : DB) (pid : Nat)
    (template : List (String × ChecklistEntry)) : DB :=
  if (db.checklist_items.filter (fun r => r.project_id == pid)).length = 0 then
    { db with
      checklist_items := db.checklist_items ++
        mkChecklistRows pid db.nextChecklistId 1 template
      nextChecklistId := db.nextChecklistId + template.length }
  else db

/-- `DBManager.get_checklist`: `SELECT * ... WHERE project_id=? ORDER BY seq`. -/
def get_checklist (db : DB) (pid : Nat) : List ChecklistRow :=
  ((db.checklist_items.filter (fun r => r.project_id == pid)).insertionSort cseqLe)

/-- `DBManager.update_checklist_item`: UPDATE of the three mutable columns
of the row with the given primary key. -/
def update_checklist_item (db : DB) (item_id : Nat) (completed : Int)
    (person : String) (reference : String) : DB :=
  { db with checklist_items := db.checklist_items.map (fun r =>
      if r.id == item_id then
        { r with completed := completed, person := person, reference := reference }
      else r) }

/-- The fixed category list of `HandoverTab.categories` (14 entries). -/
def categories : List String :=
  ["Process Flow Chart", "PFMEA", "Control Plan", "Process Parameters",
   "SAP BOM", "Label Artwork", "Cycle Time Study",
   "Assembly Qualification Report", "Packaging Document",
   "WI", "SOP", "Stencil, Tools & Fixtures", "Lessons Learnt",
   "Other Documents"]

/-- One store-mutating step of the application.  `add_handover_doc` is
reached only through `HandoverTab.add_files`, whose category argument is
always drawn from `HandoverTab.categories`; every other operation is as the
corresponding `DBManager` method (or the inline SQL of `remove_selected`). -/
inductive Step : DB → DB → Prop where
  | addProject (db : DB) (product name : String) (d : ProjectDetails) :
      Step db (add_project db product name d).1
  | updateProject (db : DB) (name : String) (d : ProjectDetails) :
      Step db (update_project_details db name d)
  | deleteProject (db : DB) (name : String) :
      Step db (delete_project db name)
  | saveMes (db : DB) (pid : Nat) (m : MesInput) :
      Step db (save_mes db pid m)
  | saveMatrixRows (db : DB) (k : MatrixKind) (pid : Nat)
      (rows : List (String × String)) :
      Step db (saveMatrix db k pid rows)
  | addDoc (db : DB) (pid : Nat) (c : String) (hc : c ∈ categories) (path : String) :
      Step db (add_handover_doc db pid c path)
  | removeDoc (db : DB) (doc_id : Nat) :
      Step db (remove_handover_doc db doc_id)
  | removeDocByPath (db : DB) (pid : Nat) (path : String) :
      Step db (remove_handover_doc_by_path db pid path)
  | initChecklist (db : DB) (pid : Nat) (tpl : List (String × ChecklistEntry)) :
      Step db (initialize_checklist db pid tpl)
  | updateItem (db : DB) (item_id : Nat) (c : Int) (p r : String) :
      Step db (update_checklist_item db item_id c p r)

/-- Store states reachable from a fresh database through the application's
operations. -/
def Reachable (db : DB) : Prop :=
  Relation.ReflTransGen Step emptyDB db

/-- Paths are lists of components.  `os.path.dirname` drops the last one. -/
def dirname (p : List String) : List String :=
  p.dropLast

/-- Length of the common prefix of two component lists, as used by
`os.path.relpath`. -/
def commonPrefixLen : List String → List String → Nat
  | a :: as, b :: bs => if a = b then commonPrefixLen as bs + 1 else 0
  | _, _ => 0

/-- `os.path.relpath(path, start)` on already-normalized component lists:
climb out of the non-shared part of `start` with `..`, then descend into
the non-shared part of `path`. -/
def relpath (path start : List String) : List String :=
  List.replicate (start.length - commonPrefixLen path start) ".." ++
    path.drop (commonPrefixLen path start)

/-- Archive loop of `HandoverTab.perform_handover`: `files` are the paths
of the regular files under the project directory, relative to it (as
produced by `os.walk(proj_dir)`); each is written with an archive-internal
name `os.path.relpath(full, os.path.dirname(proj_dir))`. -/
def performHandoverArchive (projDir : List String)
    (files : List (List String)) : List (List String × List String) :=
  files.map (fun rel => (projDir ++ rel, relpath (projDir ++ rel) (dirname projDir)))

/-- Invariant claimed for the matrix tables: every row has a `seq` value and,
for each project and kind, the sequence values (read in physical row order)
are exactly 1..N, dense and 1-based. -/
def MatrixSeqInv (db : DB) : Prop :=
  ∀ (k : MatrixKind) (pid : Nat),
    (((db.table k).filter (fun r => r.project_id == pid)).map (fun r => r.seq)) =
      (List.range ((db.table k).filter (fun r => r.project_id == pid)).length).map
        (fun i => some (i + 1))

/-- Details dict with all metadata blank and no seeding payload. -/
def emptyDetails : ProjectDetails :=
  { fg_part_number := "", pcba_part_number := "", start_date := "", end_date := ""
    bom_file := "", npi_engineer := "", mes_workflow := none
    assembly_drawings := [], build_matrix := [], machine_program := [] }

/-- Details whose "MES Workflow" dict is non-empty. -/
def workflowSeedDetails : ProjectDetails :=
  { emptyDetails with mes_workflow := some ⟨"LOT1", "", "", "", "", 0, "", 0⟩ }

/-- Details whose "Machine Program" list is non-empty. -/
def machineSeedDetails : ProjectDetails :=
  { emptyDetails with machine_program := [("ICT", "prog1")] }

/-- Details whose "Build Matrix" list is non-empty. -/
def buildSeedDetails : ProjectDetails :=
  { emptyDetails with build_matrix := [("Resistor", "ACME")] }

/-- Store holding one project (id 1, name "P") with exactly one row in each
of the six child tables. -/
def dbC1 : DB :=
  { projects := [⟨1, "Widgets", "P", "", "", "", "", "", ""⟩], nextProjectId := 2
    mes := [⟨1, 1, "LOT1", "", "", "", "", none, "", none⟩], nextMesId := 2
    assembly_drawings := [⟨1, 1, "AD-01", "Drawing A", some 1⟩], nextAssemblyId := 2
    build_matrix := [⟨1, 1, "Resistor", "ACME", some 1⟩], nextBuildId := 2
    machine_matrix := [⟨1, 1, "ICT", "prog1", some 1⟩], nextMachineId := 2
    handover_docs := [⟨1, 1, "WI", "WI/doc1.pdf"⟩], nextDocId := 2
    checklist_items := [⟨1, 1, "SOP", 0, "QA", "", 1⟩], nextChecklistId := 2 }

/-- Two-entry checklist template used to instantiate quantified theorems. -/
def tplW : List (String × ChecklistEntry) :=
  [("Control Plan", ⟨false, "SIVA", ""⟩), ("SOP", ⟨false, "", ""⟩)]

section Helpers

/-- Filtering with a predicate directly after filtering with its negation
yields nothing (the two DELETE/SELECT scopes are disjoint). -/
theorem filter_not_filter {α : Type} (p : α → Bool) (l : List α) :
    (l.filter (fun a => !(p a))).filter p = [] := by
  rw [List.filter_filter]
  refine List.filter_eq_nil_iff.mpr ?_
  intro a _
  simp

/-- Filtering with `q` is unaffected by a prior filter with `p` when `q`
implies `p`. -/
theorem filter_filter_of_imp {α : Type} {p q : α → Bool}
    (h : ∀ a, q a = true → p a = true) (l : List α) :
    (l.filter p).filter q = l.filter q := by
  rw [List.filter_filter]
  refine List.filter_congr ?_
  intro a _
  cases hq : q a with
  | false => simp
  | true => simp [h a hq]

/-- Every row built by `mkMatrixRows` carries the supplied project id. -/
theorem mkMatrixRows_project_id (pid nid s : Nat) (rows : List (String × String)) :
    ∀ r ∈ mkMatrixRows pid nid s rows, r.project_id = pid := by
  induction rows generalizing nid s with
  | nil => intro r hr; cases hr
  | cons hd tl ih =>
    obtain ⟨a, b⟩ := hd
    intro r hr
    rcases hr with _ | ⟨_, hr⟩
    · rfl
    · exact ih (nid + 1) (s + 1) r hr

/-- Rows built by `mkMatrixRows` survive the project-id filter wholesale. -/
theorem mkMatrixRows_filter_self (pid nid s : Nat) (rows : List (String × String)) :
    (mkMatrixRows pid nid s rows).filter (fun r => r.project_id == pid) =
      mkMatrixRows pid nid s rows := by
  refine List.filter_eq_self.mpr ?_
  intro r hr
  simp [mkMatrixRows_project_id pid nid s rows r hr]

/-- Rows built by `mkMatrixRows` vanish under a different project-id filter. -/
theorem mkMatrixRows_filter_ne (pid q nid s : Nat) (hq : q ≠ pid)
    (rows : List (String × String)) :
    (mkMatrixRows pid nid s rows).filter (fun r => r.project_id == q) = [] := by
  refine List.filter_eq_nil_iff.mpr ?_
  intro r hr
  simp [mkMatrixRows_project_id pid nid s rows r hr]
  omega

/-- The Python `or ""` coalescing is the identity on strings. -/
theorem pyOr_eq (s : String) : pyOr s = s := by
  by_cases h : s = "" <;> simp [pyOr, h]

/-- Projecting the two text columns back out of `mkMatrixRows` recovers the
input pairs. -/
theorem mkMatrixRows_map_pair (pid nid s : Nat) (rows : List (String × String)) :
    (mkMatrixRows pid nid s rows).map (fun r => (r.fieldA, r.fieldB)) = rows := by
  induction rows generalizing nid s with
  | nil => rfl
  | cons hd tl ih =>
    obtain ⟨a, b⟩ := hd
    simp [mkMatrixRows, pyOr_eq, ih (nid + 1) (s + 1)]

/-- The `seq` column of `mkMatrixRows` counts up from its start value. -/
theorem mkMatrixRows_map_seq (pid nid s : Nat) (rows : List (String × String)) :
    (mkMatrixRows pid nid s rows).map (fun r => r.seq) =
      (List.range rows.length).map (fun i => some (s + i)) := by
  induction rows generalizing nid s with
  | nil => rfl
  | cons hd tl ih =>
    obtain ⟨a, b⟩ := hd
    simp only [mkMatrixRows, List.map_cons, List.length_cons,
      List.range_succ_eq_map, List.map_map]
    rw [ih (nid + 1) (s + 1)]
    refine congrArg₂ List.cons (by simp) ?_
    refine List.map_congr_left ?_
    intro i _
    simp only [Function.comp_apply]
    exact congrArg some (by omega)

/-- Number of rows built by `mkMatrixRows`. -/
theorem mkMatrixRows_length (pid nid s : Nat) (rows : List (String × String)) :
    (mkMatrixRows pid nid s rows).length = rows.length := by
  induction rows generalizing nid s with
  | nil => rfl
  | cons hd tl ih =>
    obtain ⟨a, b⟩ := hd
    simp [mkMatrixRows, ih (nid + 1) (s + 1)]

/-- Every `seq` key in `mkMatrixRows pid nid s rows` is at least `s + 1`. -/
theorem mkMatrixRows_seqKey_ge (pid nid s : Nat) (rows : List (String × String)) :
    ∀ r ∈ mkMatrixRows pid nid s rows, s + 1 ≤ seqKey r.seq := by
  induction rows generalizing nid s with
  | nil => intro r hr; cases hr
  | cons hd tl ih =>
    obtain ⟨a, b⟩ := hd
    intro r hr
    rcases hr with _ | ⟨_, hr⟩
    · simp [seqKey]
    · exact le_trans (by omega) (ih (nid + 1) (s + 1) r hr)

/-- The rows built by `mkMatrixRows` come out sorted by `seq`. -/
theorem mkMatrixRows_sorted (pid nid s : Nat) (rows : List (String × String)) :
    (mkMatrixRows pid nid s rows).Sorted seqLe := by
  induction rows generalizing nid s with
  | nil => exact List.sorted_nil
  | cons hd tl ih =>
    obtain ⟨a, b⟩ := hd
    rw [mkMatrixRows, List.sorted_cons]
    refine ⟨?_, ih (nid + 1) (s + 1)⟩
    intro r hr
    have h1 := mkMatrixRows_seqKey_ge pid (nid + 1) (s + 1) tl r hr
    show seqKey (some s) ≤ seqKey r.seq
    have h2 : seqKey (some s) = s + 1 := rfl
    omega

/-- Reading back the table just written by `DB.setTable`. -/
theorem table_setTable (db : DB) (k : MatrixKind) (t : List MatrixRow) (n : Nat) :
    (db.setTable k t n).table k = t := by
  cases k <;> rfl

/-- `DB.setTable` leaves the other two matrix tables alone. -/
theorem table_setTable_ne (db : DB) {k k' : MatrixKind} (t : List MatrixRow)
    (n : Nat) (h : k' ≠ k) : (db.setTable k t n).table k' = db.table k' := by
  cases k <;> cases k' <;> first | rfl | exact absurd rfl h

/-- Replace-then-read on one generic matrix kind returns the written rows. -/
theorem saveMatrix_getMatrix (db : DB) (k : MatrixKind) (pid : Nat)
    (rows : List (String × String)) :
    getMatrix (saveMatrix db k pid rows) k pid = rows := by
  unfold getMatrix saveMatrix
  rw [table_setTable, List.filter_append,
    filter_not_filter (fun r : MatrixRow => r.project_id == pid), List.nil_append,
    mkMatrixRows_filter_self,
    List.Sorted.insertionSort_eq (mkMatrixRows_sorted pid (db.nextTableId k) 1 rows),
    mkMatrixRows_map_pair]

/-- Replacing one kind does not touch the tables of the other kinds. -/
theorem saveMatrix_table_ne (db : DB) {k k' : MatrixKind} (pid : Nat)
    (rows : List (String × String)) (hk : k' ≠ k) :
    (saveMatrix db k pid rows).table k' = db.table k' :=
  table_setTable_ne db _ _ hk

/-- Replacing one project's rows does not touch the rows of any other
project in the same table. -/
theorem saveMatrix_filter_ne (db : DB) (k : MatrixKind) (pid q : Nat)
    (rows : List (String × String)) (hq : q ≠ pid) :
    ((saveMatrix db k pid rows).table k).filter (fun r => r.project_id == q) =
      (db.table k).filter (fun r => r.project_id == q) := by
  unfold saveMatrix
  rw [table_setTable, List.filter_append, mkMatrixRows_filter_ne pid q _ 1 hq,
    List.append_nil]
  refine filter_filter_of_imp ?_ _
  intro r hr
  simp only [beq_iff_eq] at hr
  simp [hr, hq]

/-- The empty store satisfies the matrix sequence invariant. -/
theorem matrixSeqInv_emptyDB : MatrixSeqInv emptyDB := by
  intro k q
  cases k <;> rfl

end Helpers

/-- C2: for every project id, every matrix kind (assembly drawings, build
components, machine programs) and every list of pairs of strings (so in
particular every list of 0 to 20 pairs, empty strings allowed), saving the
list and then reading the matrix back returns exactly the supplied pairs in
the supplied order; an empty list leaves the get operation returning the
empty sequence. -/
theorem matrix_replace_roundtrip (db : DB) (pid : Nat)
    (rows : List (String × String)) :
    get_assembly_drawings (save_assembly_drawings db pid rows) pid = rows ∧
    get_build_matrix (save_build_matrix db pid rows) pid = rows ∧
    get_machine_matrix (save_machine_matrix db pid rows) pid = rows :=
  ⟨saveMatrix_getMatrix db .assembly pid rows,
   saveMatrix_getMatrix db .build pid rows,
   saveMatrix_getMatrix db .machine pid rows⟩

/-- C10: replacing a matrix of one kind for one project id leaves unchanged
the whole table of every other kind and every row of the same kind that
belongs to a different project id: the delete-then-insert is scoped to
exactly the given project id and kind. -/
theorem saveMatrix_frame (db : DB) (k k' : MatrixKind) (pid q : Nat)
    (rows : List (String × String)) (hk : k' ≠ k) (hq : q ≠ pid) :
    (saveMatrix db k pid rows).table k' = db.table k' ∧
    ((saveMatrix db k pid rows).table k).filter (fun r => r.project_id == q) =
      (db.table k).filter (fun r => r.project_id == q) :=
  ⟨saveMatrix_table_ne db pid rows hk, saveMatrix_filter_ne db k pid q rows hq⟩

/-- Witness for C10 at a concrete store, kind pair and project pair. -/
theorem saveMatrix_frame_witness :
    (saveMatrix dbC1 .build 1 [("Capacitor", "Beta")]).table .machine =
      dbC1.table .machine ∧
    ((saveMatrix dbC1 .build 1 [("Capacitor", "Beta")]).table .build).filter
        (fun r => r.project_id == 2) =
      (dbC1.table .build).filter (fun r => r.project_id == 2) :=
  saveMatrix_frame dbC1 .build .machine 1 2 [("Capacitor", "Beta")]
    (by decide) (by decide)

/-- C6 counterexample: project creation with build-matrix seed data (a core
operation per the claim) stores a build-matrix row whose `seq` column is
NULL, so not every stored matrix row has a sequence value. -/
theorem add_project_build_seed_missing_seq :
    ((add_project emptyDB "Widgets" "WidgetA" buildSeedDetails).1.build_matrix.map
      (fun r => r.seq)) = [none] := by decide

/-- C6 amended: after any sequence of matrix replace operations (the
creation-time seeding path inserts its rows without any sequence value, so
it is excluded), every stored matrix row of every kind for a project has a
sequence value and, per project and kind, the values are exactly 1..N,
dense and 1-based, reflecting the caller-supplied order: the invariant is
preserved by every replace. -/
theorem saveMatrix_seq_invariant (db : DB) (k : MatrixKind) (pid : Nat)
    (rows : List (String × String)) (h : MatrixSeqInv db) :
    MatrixSeqInv (saveMatrix db k pid rows) := by
  intro k1 q
  by_cases hk : k1 = k
  · subst hk
    by_cases hq : q = pid
    · subst hq
      unfold saveMatrix
      rw [table_setTable, List.filter_append,
        filter_not_filter (fun r : MatrixRow => r.project_id == q),
        List.nil_append, mkMatrixRows_filter_self, mkMatrixRows_map_seq,
        mkMatrixRows_length]
      refine List.map_congr_left ?_
      intro i _
      exact congrArg some (by omega)
    · rw [saveMatrix_filter_ne db k1 pid q rows hq]
      exact h k1 q
  · rw [saveMatrix_table_ne db pid rows hk]
    exact h k1 q

/-- Witness for C6 (amended): the invariant holds after a replace on the
empty store. -/
theorem saveMatrix_seq_invariant_witness :
    MatrixSeqInv (saveMatrix emptyDB .build 1 [("Resistor", "ACME"), ("Capacitor", "Beta")]) :=
  saveMatrix_seq_invariant emptyDB .build 1 [("Resistor", "ACME"), ("Capacitor", "Beta")]
    matrixSeqInv_emptyDB

/-- C1 counterexample: `dbC1` holds project "P" (id 1) with one row in each
child collection; `delete_project` removes the project row but leaves the
assembly-drawings row referencing id 1 in place. -/
theorem delete_project_leaves_assembly_row :
    (delete_project dbC1 "P").projects = [] ∧
    ((delete_project dbC1 "P").assembly_drawings.filter
      (fun r => r.project_id == 1)).length = 1 := by decide

/-- C1 amended: for every project that exists in the store, `deleteProject`
removes the project row and leaves zero rows referencing its id in the
workflow (mes), build-matrix, machine-matrix, document and checklist
collections, but it does not touch the assembly-drawings matrix, whose
rows all survive. -/
theorem delete_project_cascade (db : DB) (name : String) (row : ProjectRow)
    (h : db.projects.find? (fun r => r.project_name == name) = some row) :
    (delete_project db name).projects.filter
      (fun r => r.project_id == row.project_id) = [] ∧
    (delete_project db name).mes.filter
      (fun r => r.project_id == row.project_id) = [] ∧
    (delete_project db name).build_matrix.filter
      (fun r => r.project_id == row.project_id) = [] ∧
    (delete_project db name).machine_matrix.filter
      (fun r => r.project_id == row.project_id) = [] ∧
    (delete_project db name).handover_docs.filter
      (fun r => r.project_id == row.project_id) = [] ∧
    (delete_project db name).checklist_items.filter
      (fun r => r.project_id == row.project_id) = [] ∧
    (delete_project db name).assembly_drawings = db.assembly_drawings := by
  unfold delete_project
  rw [h]
  exact ⟨filter_not_filter (fun r : ProjectRow => r.project_id == row.project_id) _,
    filter_not_filter (fun r : MesRow => r.project_id == row.project_id) _,
    filter_not_filter (fun r : MatrixRow => r.project_id == row.project_id) _,
    filter_not_filter (fun r : MatrixRow => r.project_id == row.project_id) _,
    filter_not_filter (fun r : DocRow => r.project_id == row.project_id) _,
    filter_not_filter (fun r : ChecklistRow => r.project_id == row.project_id) _,
    rfl⟩

/-- Witness for C1 (amended) on the concrete store `dbC1`. -/
theorem delete_project_cascade_witness :
    (delete_project dbC1 "P").projects.filter (fun r => r.project_id == 1) = [] ∧
    (delete_project dbC1 "P").mes.filter (fun r => r.project_id == 1) = [] ∧
    (delete_project dbC1 "P").build_matrix.filter (fun r => r.project_id == 1) = [] ∧
    (delete_project dbC1 "P").machine_matrix.filter (fun r => r.project_id == 1) = [] ∧
    (delete_project dbC1 "P").handover_docs.filter (fun r => r.project_id == 1) = [] ∧
    (delete_project dbC1 "P").checklist_items.filter (fun r => r.project_id == 1) = [] ∧
    (delete_project dbC1 "P").assembly_drawings = dbC1.assembly_drawings :=
  delete_project_cascade dbC1 "P" ⟨1, "Widgets", "P", "", "", "", "", "", ""⟩ (by decide)

/-- C7: adding the same (category, path) document twice for the same
project appends two catalog rows with distinct primary keys (no
deduplication), and removing by project id + path then deletes every
catalog row whose project id and file path match exactly — both new rows
and any pre-existing matches — leaving exactly the non-matching rows. -/
theorem handover_doc_append_remove (db : DB) (pid : Nat) (cat path : String) :
    (add_handover_doc (add_handover_doc db pid cat path) pid cat path).handover_docs =
      db.handover_docs ++
        [⟨db.nextDocId, pid, cat, path⟩, ⟨db.nextDocId + 1, pid, cat, path⟩] ∧
    (⟨db.nextDocId, pid, cat, path⟩ : DocRow) ≠ ⟨db.nextDocId + 1, pid, cat, path⟩ ∧
    (remove_handover_doc_by_path
        (add_handover_doc (add_handover_doc db pid cat path) pid cat path)
        pid path).handover_docs =
      db.handover_docs.filter (fun d => !(d.project_id == pid && d.file_path == path)) := by
  refine ⟨?_, ?_, ?_⟩
  · simp [add_handover_doc]
  · intro hcontra
    have hid := congrArg DocRow.id hcontra
    simp at hid
  · simp [add_handover_doc, remove_handover_doc_by_path, List.filter_append]

/-- C5 code bug: `add_project` fails because of the content of the
supplied fields, not because of any I/O-level failure of the store: fields
carrying MES-workflow or machine-program seed data make it insert into the
`mes_workflow` / `machine_program` table names that `_create_tables` never
defines (the schema has `mes` and `machine_matrix`), raising
`sqlite3.OperationalError` instead of returning an identifier. -/
theorem add_project_missing_child_tables :
    (add_project emptyDB "Widgets" "WidgetA" workflowSeedDetails).2 =
      Except.error (SqlError.noSuchTable "mes_workflow") ∧
    (add_project emptyDB "Widgets" "WidgetA" machineSeedDetails).2 =
      Except.error (SqlError.noSuchTable "machine_program") :=
  ⟨rfl, rfl⟩

section AddProjectLemmas

/-- With no MES-workflow and no machine-program seed data, `add_project`
returns the looked-up project id, and its seeding loops leave the
`projects` table exactly as the insert-if-absent left it. -/
theorem add_project_no_seed (db : DB) (product name : String)
    (d : ProjectDetails) (hw : d.mes_workflow = none)
    (hm : d.machine_program = []) (row : ProjectRow)
    (hfind : (insertProjectIfAbsent db product name d).projects.find?
      (fun r => r.project_name == name) = some row) :
    (add_project db product name d).2 = Except.ok (row.project_id : Int) ∧
    (add_project db product name d).1.projects =
      (insertProjectIfAbsent db product name d).projects := by
  simp only [add_project, hfind, hw, hm]
  exact ⟨trivial, rfl⟩

/-- Inserting a fresh (absent) name appends exactly one row, and looking
the name up afterwards finds that row. -/
theorem insertProjectIfAbsent_find_new (db : DB) (product name : String)
    (d : ProjectDetails)
    (hfe : (db.projects.filter (fun r => r.project_name == name)).isEmpty = true) :
    (insertProjectIfAbsent db product name d).projects.find?
        (fun r => r.project_name == name) =
      some ⟨db.nextProjectId, product, name, d.fg_part_number,
        d.pcba_part_number, d.start_date, d.end_date, d.bom_file,
        d.npi_engineer⟩ ∧
    (insertProjectIfAbsent db product name d).projects =
      db.projects ++ [⟨db.nextProjectId, product, name, d.fg_part_number,
        d.pcba_part_number, d.start_date, d.end_date, d.bom_file,
        d.npi_engineer⟩] := by
  have hnil : db.projects.filter (fun r => r.project_name == name) = [] :=
    List.isEmpty_iff.mp hfe
  have hnone : db.projects.find? (fun r => r.project_name == name) = none := by
    rw [List.find?_eq_none]
    intro x hx
    exact List.filter_eq_nil_iff.mp hnil x hx
  unfold insertProjectIfAbsent
  rw [if_pos hfe]
  refine ⟨?_, rfl⟩
  dsimp only
  rw [List.find?_append, hnone]
  simp [List.find?]

/-- Inserting a name that already exists is ignored. -/
theorem insertProjectIfAbsent_existing (db : DB) (product name : String)
    (d : ProjectDetails)
    (hfe : (db.projects.filter (fun r => r.project_name == name)).isEmpty = false) :
    insertProjectIfAbsent db product name d = db := by
  unfold insertProjectIfAbsent
  rw [if_neg]
  simp [hfe]

end AddProjectLemmas

/-- C3 counterexample: with field values that carry MES-workflow seed data,
the repeated call does not return an identifier at all — it raises the
missing-table error — so the claim fails for such field values. -/
theorem add_project_twice_workflow_seed_errors :
    (add_project (add_project emptyDB "Widgets" "WidgetA" workflowSeedDetails).1
      "Widgets" "WidgetA" workflowSeedDetails).2 =
      Except.error (SqlError.noSuchTable "mes_workflow") := rfl

/-- C3 amended: calling createProject twice with the same project name and
field values carrying no MES-workflow and no machine-program seed data
(the seeds that hit the missing child tables) leaves exactly one project
row with that name — given that the store respects the UNIQUE name
constraint beforehand — and returns the same identifier from both calls;
re-adding the existing name is not an error. -/
theorem add_project_idempotent (db : DB) (product name : String)
    (d : ProjectDetails)
    (hu : (db.projects.filter (fun r => r.project_name == name)).length ≤ 1)
    (hw : d.mes_workflow = none) (hm : d.machine_program = []) :
    ∃ pid : Int,
      (add_project db product name d).2 = Except.ok pid ∧
      (add_project (add_project db product name d).1 product name d).2 =
        Except.ok pid ∧
      ((add_project (add_project db product name d).1 product name
          d).1.projects.filter (fun r => r.project_name == name)).length = 1 := by
  cases hfe : (db.projects.filter (fun r => r.project_name == name)).isEmpty with
  | true =>
    obtain ⟨hfind1, hproj1⟩ := insertProjectIfAbsent_find_new db product name d hfe
    obtain ⟨hr1, hp1⟩ := add_project_no_seed db product name d hw hm _ hfind1
    have hnil : db.projects.filter (fun r => r.project_name == name) = [] :=
      List.isEmpty_iff.mp hfe
    have hproj2 : (add_project db product name d).1.projects =
        db.projects ++ [⟨db.nextProjectId, product, name, d.fg_part_number,
          d.pcba_part_number, d.start_date, d.end_date, d.bom_file,
          d.npi_engineer⟩] := by
      rw [hp1, hproj1]
    have hfilter2 : (add_project db product name d).1.projects.filter
        (fun r => r.project_name == name) =
        [⟨db.nextProjectId, product, name, d.fg_part_number,
          d.pcba_part_number, d.start_date, d.end_date, d.bom_file,
          d.npi_engineer⟩] := by
      rw [hproj2, List.filter_append, hnil]
      simp
    have hfe2 : ((add_project db product name d).1.projects.filter
        (fun r => r.project_name == name)).isEmpty = false := by
      rw [hfilter2]
      rfl
    have hins2 := insertProjectIfAbsent_existing
      (add_project db product name d).1 product name d hfe2
    have hnone : db.projects.find? (fun r => r.project_name == name) = none := by
      rw [List.find?_eq_none]
      intro x hx
      exact List.filter_eq_nil_iff.mp hnil x hx
    have hfind2 : (insertProjectIfAbsent (add_project db product name d).1
        product name d).projects.find? (fun r => r.project_name == name) =
        some ⟨db.nextProjectId, product, name, d.fg_part_number,
          d.pcba_part_number, d.start_date, d.end_date, d.bom_file,
          d.npi_engineer⟩ := by
      rw [hins2, hproj2, List.find?_append, hnone]
      simp [List.find?]
    obtain ⟨hr2, hp2⟩ := add_project_no_seed
      (add_project db product name d).1 product name d hw hm _ hfind2
    refine ⟨(db.nextProjectId : Int), hr1, hr2, ?_⟩
    rw [hp2, hins2, hfilter2]
    rfl
  | false =>
    have hins1 := insertProjectIfAbsent_existing db product name d hfe
    have hne : db.projects.filter (fun r => r.project_name == name) ≠ [] := by
      intro hcontra
      rw [hcontra] at hfe
      simp at hfe
    have hex : ∃ x ∈ db.projects, (fun r : ProjectRow => r.project_name == name) x = true := by
      rcases hx : db.projects.filter (fun r => r.project_name == name) with _ | ⟨y, ys⟩
      · exact absurd hx hne
      · have hy : y ∈ db.projects.filter (fun r => r.project_name == name) := by
          rw [hx]
          exact List.mem_cons_self y ys
        exact ⟨y, (List.mem_filter.mp hy).1, (List.mem_filter.mp hy).2⟩
    obtain ⟨row, hfind⟩ := Option.isSome_iff_exists.mp (List.find?_isSome.mpr hex)
    have hfind1 : (insertProjectIfAbsent db product name d).projects.find?
        (fun r => r.project_name == name) = some row := by
      rw [hins1]
      exact hfind
    obtain ⟨hr1, hp1⟩ := add_project_no_seed db product name d hw hm row hfind1
    have hproj2 : (add_project db product name d).1.projects = db.projects := by
      rw [hp1, hins1]
    have hfe2 : ((add_project db product name d).1.projects.filter
        (fun r => r.project_name == name)).isEmpty = false := by
      rw [hproj2]
      exact hfe
    have hins2 := insertProjectIfAbsent_existing
      (add_project db product name d).1 product name d hfe2
    have hfind2 : (insertProjectIfAbsent (add_project db product name d).1
        product name d).projects.find? (fun r => r.project_name == name) =
        some row := by
      rw [hins2, hproj2]
      exact hfind
    obtain ⟨hr2, hp2⟩ := add_project_no_seed
      (add_project db product name d).1 product name d hw hm row hfind2
    refine ⟨(row.project_id : Int), hr1, hr2, ?_⟩
    rw [hp2, hins2, hproj2]
    have hpos : 0 < (db.projects.filter (fun r => r.project_name == name)).length :=
      List.length_pos.mpr hne
    omega

/-- Witness for C3 (amended) on the empty store with blank details. -/
theorem add_project_idempotent_witness :
    ∃ pid : Int,
      (add_project emptyDB "Widgets" "WidgetA" emptyDetails).2 = Except.ok pid ∧
      (add_project (add_project emptyDB "Widgets" "WidgetA" emptyDetails).1
        "Widgets" "WidgetA" emptyDetails).2 = Except.ok pid ∧
      ((add_project (add_project emptyDB "Widgets" "WidgetA" emptyDetails).1
          "Widgets" "WidgetA" emptyDetails).1.projects.filter
        (fun r => r.project_name == "WidgetA")).length = 1 :=
  add_project_idempotent emptyDB "Widgets" "WidgetA" emptyDetails
    (by decide) rfl rfl

section ChecklistLemmas

/-- Every row seeded by `mkChecklistRows` carries the supplied project id. -/
theorem mkChecklistRows_project_id (pid nid s : Nat)
    (tpl : List (String × ChecklistEntry)) :
    ∀ r ∈ mkChecklistRows pid nid s tpl, r.project_id = pid := by
  induction tpl generalizing nid s with
  | nil => intro r hr; cases hr
  | cons hd tl ih =>
    obtain ⟨name, e⟩ := hd
    intro r hr
    rcases hr with _ | ⟨_, hr⟩
    · rfl
    · exact ih (nid + 1) (s + 1) r hr

/-- Seeded checklist rows survive the project-id filter wholesale. -/
theorem mkChecklistRows_filter_self (pid nid s : Nat)
    (tpl : List (String × ChecklistEntry)) :
    (mkChecklistRows pid nid s tpl).filter (fun r => r.project_id == pid) =
      mkChecklistRows pid nid s tpl := by
  refine List.filter_eq_self.mpr ?_
  intro r hr
  simp [mkChecklistRows_project_id pid nid s tpl r hr]

/-- Every `seq` in `mkChecklistRows pid nid s tpl` is at least `s`. -/
theorem mkChecklistRows_seq_ge (pid nid s : Nat)
    (tpl : List (String × ChecklistEntry)) :
    ∀ r ∈ mkChecklistRows pid nid s tpl, s ≤ r.seq := by
  induction tpl generalizing nid s with
  | nil => intro r hr; cases hr
  | cons hd tl ih =>
    obtain ⟨name, e⟩ := hd
    intro r hr
    rcases hr with _ | ⟨_, hr⟩
    · exact le_refl s
    · exact le_trans (by omega) (ih (nid + 1) (s + 1) r hr)

/-- Seeded checklist rows come out sorted by `seq`. -/
theorem mkChecklistRows_sorted (pid nid s : Nat)
    (tpl : List (String × ChecklistEntry)) :
    (mkChecklistRows pid nid s tpl).Sorted cseqLe := by
  induction tpl generalizing nid s with
  | nil => exact List.sorted_nil
  | cons hd tl ih =>
    obtain ⟨name, e⟩ := hd
    rw [mkChecklistRows, List.sorted_cons]
    refine ⟨?_, ih (nid + 1) (s + 1)⟩
    intro r hr
    have h1 := mkChecklistRows_seq_ge pid (nid + 1) (s + 1) tl r hr
    show s ≤ r.seq
    omega

/-- `initialize_checklist` is a no-op whenever the project already has
checklist rows. -/
theorem initialize_checklist_noop (db : DB) (pid : Nat)
    (tpl : List (String × ChecklistEntry))
    (h : (db.checklist_items.filter (fun r => r.project_id == pid)).length ≠ 0) :
    initialize_checklist db pid tpl = db := by
  unfold initialize_checklist
  rw [if_neg h]

/-- `initialize_checklist` with an empty template changes nothing. -/
theorem initialize_checklist_empty_tpl (db : DB) (pid : Nat) :
    initialize_checklist db pid [] = db := by
  unfold initialize_checklist
  split
  · cases db
    simp [mkChecklistRows]
  · rfl

/-- Seeding a project with zero prior rows makes its checklist rows exactly
the seeded template rows. -/
theorem initialize_checklist_filter (db : DB) (pid : Nat)
    (tpl : List (String × ChecklistEntry))
    (h0 : (db.checklist_items.filter (fun r => r.project_id == pid)).length = 0) :
    (initialize_checklist db pid tpl).checklist_items.filter
        (fun r => r.project_id == pid) =
      mkChecklistRows pid db.nextChecklistId 1 tpl := by
  unfold initialize_checklist
  rw [if_pos h0]
  dsimp only
  rw [List.filter_append, List.length_eq_zero.mp h0, List.nil_append,
    mkChecklistRows_filter_self]

/-- Re-running `initialize_checklist` immediately after it is the identity. -/
theorem initialize_checklist_idem (db : DB) (pid : Nat)
    (tpl : List (String × ChecklistEntry)) :
    initialize_checklist (initialize_checklist db pid tpl) pid tpl =
      initialize_checklist db pid tpl := by
  rcases htpl : tpl with _ | ⟨e, tl⟩
  · rw [initialize_checklist_empty_tpl, initialize_checklist_empty_tpl]
  · by_cases h0 : (db.checklist_items.filter (fun r => r.project_id == pid)).length = 0
    · apply initialize_checklist_noop
      rw [initialize_checklist_filter db pid _ h0]
      simp [mkChecklistRows]
    · rw [initialize_checklist_noop db pid _ h0, initialize_checklist_noop db pid _ h0]

/-- Iterating `initialize_checklist` one or more times equals running it
once. -/
theorem initialize_checklist_iterate (db : DB) (pid : Nat)
    (tpl : List (String × ChecklistEntry)) (m : Nat) :
    (fun s : DB => initialize_checklist s pid tpl)^[m + 1] db =
      initialize_checklist db pid tpl := by
  induction m with
  | zero => rfl
  | succ k ih =>
    rw [Function.iterate_succ_apply', ih]
    exact initialize_checklist_idem db pid tpl

end ChecklistLemmas

/-- C4: for every project id with zero existing checklist rows, calling
`initialize_checklist` N times (N ≥ 1) is the same as calling it once; that
one call seeds exactly one row per template entry, with sequence numbers
1, 2, ... following template order, persons and references taken from the
template; and on any store where the project already has checklist rows the
call is a complete no-op, so later calls add, remove and reset nothing. -/
theorem checklist_seed_once (db : DB) (pid : Nat)
    (tpl : List (String × ChecklistEntry)) (n : Nat) (hn : 1 ≤ n)
    (h0 : (db.checklist_items.filter (fun r => r.project_id == pid)).length = 0) :
    (fun s : DB => initialize_checklist s pid tpl)^[n] db =
      initialize_checklist db pid tpl ∧
    get_checklist (initialize_checklist db pid tpl) pid =
      mkChecklistRows pid db.nextChecklistId 1 tpl ∧
    ∀ s : DB,
      (s.checklist_items.filter (fun r => r.project_id == pid)).length ≠ 0 →
      initialize_checklist s pid tpl = s := by
  obtain ⟨m, rfl⟩ : ∃ m, n = m + 1 := ⟨n - 1, by omega⟩
  refine ⟨initialize_checklist_iterate db pid tpl m, ?_, ?_⟩
  · unfold get_checklist
    rw [initialize_checklist_filter db pid tpl h0]
    exact List.Sorted.insertionSort_eq
      (mkChecklistRows_sorted pid db.nextChecklistId 1 tpl)
  · intro s hs
    exact initialize_checklist_noop s pid tpl hs

/-- Witness for C4 on the empty store with a two-entry template, three
calls. -/
theorem checklist_seed_once_witness :
    (fun s : DB => initialize_checklist s 1 tplW)^[3] emptyDB =
      initialize_checklist emptyDB 1 tplW ∧
    get_checklist (initialize_checklist emptyDB 1 tplW) 1 =
      mkChecklistRows 1 emptyDB.nextChecklistId 1 tplW ∧
    ∀ s : DB,
      (s.checklist_items.filter (fun r => r.project_id == 1)).length ≠ 0 →
      initialize_checklist s 1 tplW = s :=
  checklist_seed_once emptyDB 1 tplW 3 (by decide) rfl

section DocsPreservation

/-- Insert-if-absent touches only the `projects` table. -/
theorem insertProjectIfAbsent_docs (db : DB) (p n : String) (d : ProjectDetails) :
    (insertProjectIfAbsent db p n d).handover_docs = db.handover_docs := by
  unfold insertProjectIfAbsent
  split
  · rfl
  · rfl

/-- `add_project` never writes to `handover_docs`. -/
theorem add_project_docs (db : DB) (p n : String) (d : ProjectDetails) :
    (add_project db p n d).1.handover_docs = db.handover_docs := by
  simp only [add_project]
  split
  · exact insertProjectIfAbsent_docs db p n d
  · split
    · exact insertProjectIfAbsent_docs db p n d
    · split
      · exact insertProjectIfAbsent_docs db p n d
      · exact insertProjectIfAbsent_docs db p n d

/-- `delete_project` only removes document rows, never adds them. -/
theorem delete_project_docs_sub (db : DB) (n : String) :
    ∀ d ∈ (delete_project db n).handover_docs, d ∈ db.handover_docs := by
  unfold delete_project
  split
  · intro d hd
    exact hd
  · intro d hd
    exact (List.mem_filter.mp hd).1

/-- `saveMatrix` never writes to `handover_docs`. -/
theorem saveMatrix_docs (db : DB) (k : MatrixKind) (pid : Nat)
    (rows : List (String × String)) :
    (saveMatrix db k pid rows).handover_docs = db.handover_docs := by
  cases k <;> rfl

/-- `initialize_checklist` never writes to `handover_docs`. -/
theorem initialize_checklist_docs (db : DB) (pid : Nat)
    (tpl : List (String × ChecklistEntry)) :
    (initialize_checklist db pid tpl).handover_docs = db.handover_docs := by
  unfold initialize_checklist
  split
  · rfl
  · rfl

end DocsPreservation

/-- C8: in every store state reachable through the application's
operations, the category of every handover-docs row is a member of the
fixed 14-element enumeration `HandoverTab.categories`, because the only
code path recording a document draws its category from that list. -/
theorem handover_docs_category_invariant (db : DB) (h : Reachable db) :
    ∀ d ∈ db.handover_docs, d.category ∈ categories := by
  unfold Reachable at h
  induction h with
  | refl =>
    intro d hd
    cases hd
  | tail _ hstep ih =>
    cases hstep with
    | addProject p n dd =>
      intro x hx
      rw [add_project_docs] at hx
      exact ih x hx
    | updateProject n dd =>
      intro x hx
      exact ih x hx
    | deleteProject n =>
      intro x hx
      exact ih x (delete_project_docs_sub _ n x hx)
    | saveMes pid m =>
      intro x hx
      exact ih x hx
    | saveMatrixRows k pid rows =>
      intro x hx
      rw [saveMatrix_docs] at hx
      exact ih x hx
    | addDoc pid c hc path =>
      intro x hx
      simp only [add_handover_doc] at hx
      rcases List.mem_append.mp hx with hold | hnew
      · exact ih x hold
      · rcases hnew with _ | ⟨_, hnew⟩
        · exact hc
        · cases hnew
    | removeDoc doc_id =>
      intro x hx
      exact ih x (List.mem_filter.mp hx).1
    | removeDocByPath pid path =>
      intro x hx
      exact ih x (List.mem_filter.mp hx).1
    | initChecklist pid tpl =>
      intro x hx
      rw [initialize_checklist_docs] at hx
      exact ih x hx
    | updateItem item_id c p r =>
      intro x hx
      exact ih x hx

/-- Witness for C8: in the state reached by one WI-category add from the
fresh store, the stored row's category is in the enumeration. -/
theorem handover_docs_category_invariant_witness :
    (⟨1, 1, "WI", "WI/doc1.pdf"⟩ : DocRow).category ∈ categories :=
  handover_docs_category_invariant
    (add_handover_doc emptyDB 1 "WI" "WI/doc1.pdf")
    (Relation.ReflTransGen.single
      (Step.addDoc emptyDB 1 "WI" (by decide) "WI/doc1.pdf"))
    ⟨1, 1, "WI", "WI/doc1.pdf"⟩ (by decide)

section PathLemmas

/-- The whole first list is common prefix of itself extended by anything. -/
theorem commonPrefixLen_append (l xs : List String) :
    commonPrefixLen (l ++ xs) l = l.length := by
  induction l with
  | nil =>
    cases xs with
    | nil => rfl
    | cons a t => rfl
  | cons a t ih =>
    simp [commonPrefixLen, ih]

/-- Relative path of a strict extension of `start` is the extension. -/
theorem relpath_append (l xs : List String) : relpath (l ++ xs) l = xs := by
  simp [relpath, commonPrefixLen_append, List.drop_left]

/-- Splitting a nonempty path into its parent directory and final
component. -/
theorem dropLast_append_getLastD {α : Type} (d : α) (l : List α) (h : l ≠ []) :
    l.dropLast ++ [l.getLastD d] = l := by
  induction l generalizing d with
  | nil => exact absurd rfl h
  | cons a t ih =>
    cases t with
    | nil => rfl
    | cons b u =>
      have hy := ih (d := a) (by simp)
      simp only [List.dropLast, List.getLastD_cons, List.cons_append] at hy ⊢
      rw [hy]

end PathLemmas

/-- C9: for every regular file under the project directory tree (given as
its path relative to the project directory), the archive written by
`perform_handover` contains an entry whose archive-internal path is the
file's path relative to the parent of the project directory, so the
project folder's own name is the top-level directory of the entry. -/
theorem perform_handover_arc_paths (projDir : List String)
    (files : List (List String)) (h : projDir ≠ []) :
    ∀ rel ∈ files,
      (projDir ++ rel, projDir.getLastD "" :: rel) ∈
        performHandoverArchive projDir files := by
  intro rel hrel
  have hsplit : dirname projDir ++ ([projDir.getLastD ""] ++ rel) = projDir ++ rel := by
    unfold dirname
    rw [← List.append_assoc, dropLast_append_getLastD "" projDir h]
  unfold performHandoverArchive
  refine List.mem_map.mpr ⟨rel, hrel, ?_⟩
  refine congrArg (fun a => (projDir ++ rel, a)) ?_
  rw [← hsplit, relpath_append]
  rfl

/-- Witness for C9 on a concrete project directory and file. -/
theorem perform_handover_arc_paths_witness :
    (["home", "Projects", "Widgets_WidgetA", "WI", "doc1.pdf"],
      ["Widgets_WidgetA", "WI", "doc1.pdf"]) ∈
      performHandoverArchive ["home", "Projects", "Widgets_WidgetA"]
        [["WI", "doc1.pdf"]] :=
  perform_handover_arc_paths ["home", "Projects", "Widgets_WidgetA"]
    [["WI", "doc1.pdf"]] (by decide) ["WI", "doc1.pdf"] (by decide)

end HandoverChecklist
